import Mathlib

/-!
Verification of the suggestion cache / deduplication engine of `src/app.py`
(an AI-assisted reading-response writing helper).

The Python source is shallowly embedded: every pure computation is translated
into an executable Lean definition; session state (`st.session_state`) is
passed explicitly; the external OpenAI call (`call_openai_api`) is modelled by
an `Option String` parameter (`none` = upstream failure, mirroring the
source's `None` return on any exception); `hashlib.md5(...).hexdigest()` is an
external library routine and is modelled by an arbitrary `String → String`
parameter; `random.sample` is modelled by an explicit index selection drawn
by the random number generator, constrained by `sampleOk` (the documented
contract of `random.sample`: a list of `k` distinct positions into the pool).
UI rendering, logging (`log_event`), and spinners have no effect on the
values computed and are not modelled.
-/

namespace Yerim

/-
Python string primitives are re-modelled over the character list `s.data`
(Python indexes and measures strings by code points, which is exactly what
`String.data` holds).  All of them are structurally recursive, so that
concrete executions reduce inside the kernel.
-/

/-- Python `s.lstrip(chars)`: drop leading characters belonging to `chars`. -/
def pyLstrip (chars s : String) : String :=
  ⟨s.data.dropWhile (fun c => chars.data.contains c)⟩

/-- Python `s.rstrip(chars)`: drop trailing characters belonging to `chars`. -/
def pyRstrip (chars s : String) : String :=
  ⟨(s.data.reverse.dropWhile (fun c => chars.data.contains c)).reverse⟩

/-- Python `s.strip()` (no argument): drop leading and trailing whitespace. -/
def pyStrip (s : String) : String :=
  ⟨((s.data.dropWhile Char.isWhitespace).reverse.dropWhile
      Char.isWhitespace).reverse⟩

/-- Python `s[:n]`: the first `n` code points. -/
def pyTake (n : Nat) (s : String) : String :=
  ⟨s.data.take n⟩

/-- Python `s[-n:]`: the last `n` code points (the whole string when it is
shorter). -/
def pySliceLast (n : Nat) (s : String) : String :=
  ⟨s.data.drop (s.data.length - n)⟩

/-- Python `l[-n:]`: the last `n` elements (all of them when `l` is shorter). -/
def pyTakeLast (n : Nat) (l : List α) : List α :=
  l.drop (l.length - n)

/-- Python `s.endswith(suf)`. -/
def pyEndswith (s suf : String) : Bool :=
  List.isSuffixOf suf.data s.data

/-- Python `pat in s` (substring containment). -/
def pyContains (s pat : String) : Bool :=
  s.data.tails.any (fun t => List.isPrefixOf pat.data t)

/-- Python `s.lower()` (the source strings only exercise the ASCII range;
Hangul has no case). -/
def pyLower (s : String) : String :=
  ⟨s.data.map Char.toLower⟩

/-- Splitting a character list on a separator character
(Python `s.split(sep)` for a one-character separator). -/
def splitCharAux (c : Char) : List Char → List Char → List (List Char)
  | [], acc => [acc.reverse]
  | x :: xs, acc =>
    if x = c then acc.reverse :: splitCharAux c xs []
    else splitCharAux c xs (x :: acc)

/-- Python `s.split("\n")`. -/
def pySplitNl (s : String) : List String :=
  (splitCharAux '\n' s.data []).map String.mk

/-- Python `s.splitlines()`, worker: split at '\r\n', '\r' and '\n'
boundaries (the boundaries that occur in model responses), with no trailing
empty element for a trailing boundary. -/
def pySplitlinesAux : List Char → List Char → List String
  | [], acc => if acc = [] then [] else [String.mk acc.reverse]
  | '\r' :: '\n' :: xs, acc => String.mk acc.reverse :: pySplitlinesAux xs []
  | '\r' :: xs, acc => String.mk acc.reverse :: pySplitlinesAux xs []
  | '\n' :: xs, acc => String.mk acc.reverse :: pySplitlinesAux xs []
  | x :: xs, acc => pySplitlinesAux xs (x :: acc)

/-- Python `s.splitlines()`. -/
def pySplitlines (s : String) : List String :=
  pySplitlinesAux s.data []

/-- Concatenation in the style of `sep.join(parts)` used for the JSON serializations
(a structurally recursive `String.intercalate`). -/
def joinSep (sep : String) : List String → String
  | [] => ""
  | x :: rest => rest.foldl (fun acc y => acc ++ sep ++ y) x

/-- A single ASCII apostrophe (U+0027), kept out of string literals. -/
def sq : String := String.singleton (Char.ofNat 39)

/-- One hex digit, lower case, as produced by Python string escapes. -/
def hexDigitChar (n : Nat) : Char :=
  if n < 10 then Char.ofNat (48 + n) else Char.ofNat (87 + n)

/-- Escape of one character under `json.dumps(..., ensure_ascii=False)`:
quote, backslash and ASCII control characters are escaped, everything else
(including non-ASCII) passes through unchanged. -/
def jsonEscapeChar (c : Char) : String :=
  if c = '"' then "\\\""
  else if c = '\\' then "\\\\"
  else if c = '\n' then "\\n"
  else if c = '\t' then "\\t"
  else if c = '\r' then "\\r"
  else if c = Char.ofNat 8 then "\\b"
  else if c = Char.ofNat 12 then "\\f"
  else if c.toNat < 32 then
    "\\u00" ++ String.mk [hexDigitChar (c.toNat / 16), hexDigitChar (c.toNat % 16)]
  else String.singleton c

/-- Serialization of a string value by `json.dumps` (`ensure_ascii=False`). -/
def jStr (s : String) : String :=
  "\"" ++ String.join (s.data.map jsonEscapeChar) ++ "\""

/-- Lexicographic code-point comparison of character lists: exactly the
`<=` Python uses on `str`, hence the key order of `sort_keys=True`. -/
def charLe : List Char → List Char → Bool
  | [], _ => true
  | _ :: _, [] => false
  | a :: as, b :: bs => if a = b then charLe as bs else decide (a < b)

/-- Ordering of dictionary items by key, as produced by `sort_keys=True`. -/
def keyLe (a b : String × String) : Prop := charLe a.1.data b.1.data = true

instance : DecidableRel keyLe :=
  fun a b => inferInstanceAs (Decidable (charLe a.1.data b.1.data = true))

/-- Key order of `sort_keys=True`: dictionary items serialized in sorted key order.
(A Python dict is an insertion-ordered sequence of key/value pairs with
distinct keys; it is embedded as an association list.) -/
def sortByKey (l : List (String × String)) : List (String × String) :=
  List.insertionSort keyLe l

/-- Serialization `json.dumps(d, ensure_ascii=False, sort_keys=True)` of a dict whose
values are strings (the shape of the `outline` session field). -/
def dumpsStrObj (fs : List (String × String)) : String :=
  "\x7b" ++ joinSep ", "
    ((sortByKey fs).map (fun p => jStr p.1 ++ ": " ++ jStr p.2)) ++ "\x7d"

/-- An element of the `parts` list handed to `_stable_cache_key`: the
`key_fields` built in `generate_ai_suggestions` hold strings and one int. -/
inductive PItem where
  | s (v : String)
  | i (v : Nat)
  deriving DecidableEq

/-- Serialization by `json.dumps` of one element of the `parts` list. -/
def dumpsItem : PItem → String
  | .s v => jStr v
  | .i v => toString v

/-- Serialization `json.dumps(parts, ensure_ascii=False, sort_keys=True)` of the flat
`parts` list (it contains no dicts, so `sort_keys` has nothing to reorder
at this level; the outline dict has already been serialized — with sorted
keys — into a string element by the caller). -/
def dumpsList (parts : List PItem) : String :=
  "[" ++ joinSep ", " (parts.map dumpsItem) ++ "]"

/-- The function `_stable_cache_key(parts)`, app.py lines 160-162:
`hashlib.md5(json.dumps(parts, ensure_ascii=False, sort_keys=True)
.encode("utf-8")).hexdigest()`.  The md5 hex digest is an external library
function of the serialized text, taken as the parameter `md5hex`. -/
def _stable_cache_key (md5hex : String → String) (parts : List PItem) : String :=
  md5hex (dumpsList parts)

/-- The closed set of essay blocks (`intro`/`body`/`concl`), the keys of
both `block_prompts` and the fallback pool. -/
inductive Block where
  | intro
  | body
  | concl
  deriving DecidableEq

/-- The string a `Block` stands for in prompts and key fields. -/
def Block.str : Block → String
  | .intro => "intro"
  | .body => "body"
  | .concl => "concl"

/-- The `context` dict built by the UI callers of `generate_ai_suggestions`
(absent keys default to the empty value, as with `context.get(..., "")`). -/
structure Ctx where
  book_title : String
  book_text : String
  outline : List (String × String)
  draft : String
  deriving DecidableEq

/-- The slice of `st.session_state` read and written by
`generate_ai_suggestions`: the suggestion cache plus the two session fields
that enter the cache key. -/
structure SugSession where
  cache : List (String × List String)
  focus_kw : String
  book_index : String
  deriving DecidableEq

/-- Result of one `generate_ai_suggestions` call: the returned list, the
session state afterwards, and whether the OpenAI client respectively the
fallback provider were invoked during the call. -/
structure SugResult where
  result : List String
  session : SugSession
  calledApi : Bool
  calledFallback : Bool
  deriving DecidableEq

/-- The `key_fields` list of `generate_ai_suggestions`, app.py lines 166-175:
`[context.get("book_title",""), context.get("book_text","")[:800],
json.dumps(context.get("outline", ...), ensure_ascii=False, sort_keys=True),
context.get("draft","")[-500:], block, n, st.session_state.get("focus_kw",""),
st.session_state.get("book_index","")[:1200]]`. -/
def keyFields (context : Ctx) (block : Block) (n : Nat)
    (focus_kw book_index : String) : List PItem :=
  [.s context.book_title,
   .s (pyTake 800 context.book_text),
   .s (dumpsStrObj context.outline),
   .s (pySliceLast 500 context.draft),
   .s block.str,
   .i n,
   .s focus_kw,
   .s (pyTake 1200 book_index)]

/-- The per-category fallback pools of `get_fallback_suggestions`,
app.py lines 227-244. -/
def fallbackPool : Block → List String
  | .intro =>
      ["이 책을 읽게 된 이유는 친구가 재미있다고 추천했기 때문이다.",
       "처음 제목을 보았을 때 어떤 이야기일지 궁금했다.",
       "도서관에서 우연히 이 책을 발견하고 기대가 생겼다."]
  | .body =>
      ["가장 인상 깊었던 장면은 주인공이 어려움을 극복하는 부분이었다.",
       "등장인물들의 우정을 보며 진정한 친구의 의미를 생각하게 되었다.",
       "만약 내가 주인공이었다면 어떤 선택을 했을지 상상해 보았다."]
  | .concl =>
      ["이 책을 통해 포기하지 않는 태도의 중요함을 배웠다.",
       "친구들에게도 꼭 추천하고 싶은 책이라고 느꼈다.",
       "앞으로 이 책에서 배운 교훈을 생활에서 실천해 보고 싶다."]

/-- Python `random.sample(pool, k)` picks `k` distinct positions of `pool` (chosen
by the random number generator) and returns the elements at those positions.
The positions are the explicit parameter `sel`; `sampleOk` below states the
contract `random.sample` guarantees for them. -/
def pySample (pool : List String) (sel : List Nat) : List String :=
  sel.filterMap (fun i => pool[i]?)

/-- The contract of the index selection made by `random.sample(pool, k)`:
`k` distinct in-range positions. -/
def sampleOk (pool : List String) (k : Nat) (sel : List Nat) : Prop :=
  sel.Nodup ∧ sel.length = k ∧ ∀ i ∈ sel, i < pool.length

instance (pool : List String) (k : Nat) (sel : List Nat) :
    Decidable (sampleOk pool k sel) :=
  inferInstanceAs
    (Decidable (sel.Nodup ∧ sel.length = k ∧ ∀ i ∈ sel, i < pool.length))

/-- The function `get_fallback_suggestions(block, n)`, app.py lines 227-245:
`random.sample(fallback[block], min(n, len(fallback[block])))`, with the
random draw `sel` explicit. -/
def get_fallback_suggestions (block : Block) (n : Nat) (sel : List Nat) :
    List String :=
  pySample (fallbackPool block) sel

/-- The character set stripped from the left of each raw suggestion line:
`line.strip().lstrip("0123456789.- ").strip()` (app.py line 217). -/
def sugMarkChars : String := "0123456789.- "

/-- The per-line normalization of the cleaning step of
`generate_ai_suggestions` (app.py line 217). -/
def stripLine (line : String) : String :=
  pyStrip (pyLstrip sugMarkChars (pyStrip line))

/-- All lines surviving the cleaning step before truncation
(app.py lines 215-219): split the stripped response on newlines, normalize
each line, keep it when it is non-empty and longer than 8 characters. -/
def survivors (raw : String) : List String :=
  ((pySplitNl (pyStrip raw)).map stripLine).filter
    (fun s => decide (s ≠ "" ∧ 8 < s.length))

/-- The full cleaning step of `generate_ai_suggestions`
(app.py lines 215-220): surviving lines in original order, truncated to the
first `n` (`lines = lines[:n]`). -/
def cleanSuggestions (raw : String) (n : Nat) : List String :=
  (survivors raw).take n

/-- The function `generate_ai_suggestions(context, block, n)`, app.py lines 164-225.
`md5hex` stands for the md5 hex digest, `response` for what
`call_openai_api` returns when invoked (`none` = failure; the empty string
is also falsy in `if response:`), `sel` for the random draw used if the
fallback pool is sampled.  On a cache hit the stored list is returned; on a
miss with a truthy response the cleaned lines are stored and returned; on a
miss with a falsy response the fallback sample is returned WITHOUT being
stored in the cache. -/
def generate_ai_suggestions (md5hex : String → String) (response : Option String)
    (sel : List Nat) (sess : SugSession) (context : Ctx) (block : Block)
    (n : Nat) : SugResult :=
  let cache_key := _stable_cache_key md5hex
    (keyFields context block n sess.focus_kw sess.book_index)
  match sess.cache.lookup cache_key with
  | some v => ⟨v, sess, false, false⟩
  | none =>
    match response with
    | some r =>
      if r = "" then
        ⟨get_fallback_suggestions block n sel, sess, true, true⟩
      else
        let lines := cleanSuggestions r n
        ⟨lines, ⟨(cache_key, lines) :: sess.cache, sess.focus_kw, sess.book_index⟩,
         true, false⟩
    | none => ⟨get_fallback_suggestions block n sel, sess, true, true⟩

/-! ### Guiding questions (`generate_guiding_questions`, app.py lines 247-325) -/

/-- The required question starters (app.py line 315). -/
def starters : List String := ["왜", "어떻게", "만약"]

/-- The fixed base questions returned when the model call fails
(app.py lines 294-298). -/
def baseQuestions : List String :=
  ["왜 이 장면이 특히 중요한지 스스로 설명할 수 있나요?",
   "어떻게 이 책의 메시지를 일상에서 실천할 수 있을까요?",
   "만약 당신이 주인공이었다면 어떤 결정을 내렸을까요?"]

/-- The character set stripped from the left of each candidate question:
`ln.lstrip("0123456789.-•* ")` (app.py line 305). -/
def qMarkChars : String := "0123456789.-•* "

/-- Normalization of one candidate line (app.py lines 305-307):
strip enumeration marks, then force a trailing question mark, replacing
trailing sentence punctuation. -/
def normalizeQ (ln : String) : String :=
  let q := pyStrip (pyLstrip qMarkChars ln)
  if pyEndswith q "?" then q else pyRstrip ".!…" q ++ "?"

/-- The candidate loop of `generate_guiding_questions`
(app.py lines 303-313): accumulate normalized candidates not yet seen,
growing `seen` (a set, embedded as a list used for membership), stopping as
soon as 3 candidates were accepted. -/
def dedupLoop : List String → List String → List String →
    List String × List String
  | [], cleaned, seen => (cleaned, seen)
  | ln :: rest, cleaned, seen =>
    if cleaned.length = 3 then (cleaned, seen)
    else
      let q := normalizeQ ln
      if q ∈ seen then dedupLoop rest cleaned seen
      else dedupLoop rest (cleaned ++ [q]) (q :: seen)

/-- The filler question for starter `s` (app.py lines 318-319):
`f"‹s› 이 책을 통해‹kw_part› 내가 배우거나 바꿀 수 있는 점은 무엇일까요?"`
where `kw_part` quotes the focus keyword when one is set. -/
def fillerText (focus_kw s : String) : String :=
  let kw_part := if focus_kw = "" then "" else " " ++ sq ++ focus_kw ++ sq
  s ++ " 이 책을 통해" ++ kw_part ++ " 내가 배우거나 바꿀 수 있는 점은 무엇일까요?"

/-- The `while len(cleaned) < 3` filler loop (app.py lines 316-322),
indexed by fuel: `none` means the loop has not finished within `fuel`
iterations.  (The loop body does not advance `len(cleaned)` when the filler
is already in `seen`, so the same filler is retried forever; see the
nontermination theorem for claim C3.) -/
def fillLoop (focus_kw : String) : Nat → List String → List String →
    Option (List String × List String)
  | 0, cleaned, seen => if cleaned.length < 3 then none else some (cleaned, seen)
  | fuel + 1, cleaned, seen =>
    if cleaned.length < 3 then
      let s := starters.getD (cleaned.length % 3) ""
      let filler := fillerText focus_kw s
      if filler ∈ seen then fillLoop focus_kw fuel cleaned seen
      else fillLoop focus_kw fuel (cleaned ++ [filler]) (filler :: seen)
    else some (cleaned, seen)

/-- The function `generate_guiding_questions(context)`, app.py lines 247-325.
`resp` is what `call_openai_api` returns (`none` = failure; the empty
string is also falsy in `if not resp:`); `focus_kw` and `hist`
(`question_history`) are the session fields the result depends on (the
nonce, book index and draft tail only enter the prompt).  The value is
`(returned questions, new question_history)`, or `none` when the filler
loop does not finish within `fuel` iterations.  Note the two different
history trims: `(hist + base)[-50:]` on the failure path but
`(hist + cleaned)[:50]` on the success path. -/
def generate_guiding_questions (resp : Option String) (focus_kw : String)
    (hist : List String) (fuel : Nat) : Option (List String × List String) :=
  match resp with
  | none => some (baseQuestions, pyTakeLast 50 (hist ++ baseQuestions))
  | some r =>
    if r = "" then some (baseQuestions, pyTakeLast 50 (hist ++ baseQuestions))
    else
      let raw_lines := (pySplitlines r).filterMap
        (fun ln => let t := pyStrip ln; if t = "" then none else some t)
      let cs := dedupLoop raw_lines [] (pyTakeLast 100 hist)
      match fillLoop focus_kw fuel cs.1 cs.2 with
      | none => none
      | some (cleaned, _) => some (cleaned.take 3, (hist ++ cleaned).take 50)

/-! ### Stage detection (app.py lines 386-411) -/

/-- The body-indicating phrases of `detect_stage` (app.py line 392). -/
def bodyPhrases : List String :=
  ["가장 인상 깊었던", "기억에 남는", "느꼈", "교훈"]

/-- The function `detect_stage(draft, outline)`, app.py lines 386-394: the heuristic
stage classifier (the outline argument is unused by the source body). -/
def detect_stage (draft : String) (outline : List (String × String)) : String :=
  if pyStrip draft = "" then "intro"
  else if draft.length < 150 then "intro"
  else if bodyPhrases.any (fun x => pyContains draft x) then "body"
  else "concl"

/-- The function `detect_stage_llm(draft, outline)`, app.py lines 396-411.  `draft` and
`outline` only enter the prompt; `resp` is what `call_openai_api` returns
(`resp or ""` in the source turns a failure into the empty string). -/
def detect_stage_llm (draft : String) (outline : List (String × String))
    (resp : Option String) : String :=
  let r := pyLower (resp.getD "")
  if pyContains r "intro" then "intro"
  else if pyContains r "concl" || pyContains r "결론" then "concl"
  else "body"

/-! ### Draft mutation queue (app.py lines 62-80) -/

/-- The draft-editing slice of `st.session_state`: the accumulated draft and
the pending `_draft_append_queue` (an absent key reads as `[]`). -/
structure DraftState where
  draft : String
  queue : List String
  deriving DecidableEq

/-- The function `_queue_append(text)`, app.py lines 73-80: append a non-empty fragment
to the pending queue without touching the draft (the `st.rerun()` only
schedules the next turn). -/
def _queue_append (text : String) (st : DraftState) : DraftState :=
  if text = "" then st else ⟨st.draft, st.queue ++ [text]⟩

/-- The fold of app.py lines 67-70: each non-empty queued part is appended
to the running draft, preceded by a blank line when the running draft has
non-whitespace content, and the result is stripped. -/
def appendParts (cur : String) (parts : List String) : String :=
  parts.foldl
    (fun cur part =>
      if part = "" then cur
      else pyStrip (cur ++ (if pyStrip cur ≠ "" then "\n\n" else "") ++ part))
    cur

/-- The function `_apply_draft_queue()`, app.py lines 62-71: pop the queue; when it is
non-empty, fold its fragments into the draft. -/
def _apply_draft_queue (st : DraftState) : DraftState :=
  let queued := st.queue
  if queued = [] then ⟨st.draft, []⟩
  else ⟨appendParts st.draft queued, []⟩

/-! ### Helper lemmas -/

theorem charLe_total : ∀ as bs : List Char, charLe as bs = true ∨ charLe bs as = true := by
  intro as
  induction as with
  | nil => intro bs; left; rfl
  | cons a as ih =>
    intro bs
    cases bs with
    | nil => right; rfl
    | cons b bs =>
      by_cases hab : a = b
      · subst hab
        rcases ih bs with h | h
        · left; simpa [charLe] using h
        · right; simpa [charLe] using h
      · rcases lt_trichotomy a b with h | h | h
        · left; simp [charLe, hab, h]
        · exact absurd h hab
        · right; simp [charLe, Ne.symm hab, h]

theorem charLe_trans : ∀ as bs cs : List Char,
    charLe as bs = true → charLe bs cs = true → charLe as cs = true := by
  intro as
  induction as with
  | nil => intro bs cs _ _; rfl
  | cons a as ih =>
    intro bs cs h₁ h₂
    cases bs with
    | nil => simp [charLe] at h₁
    | cons b bs =>
      cases cs with
      | nil => simp [charLe] at h₂
      | cons c cs =>
        by_cases hab : a = b <;> by_cases hbc : b = c
        · subst hab; subst hbc
          simp only [charLe, if_pos rfl] at h₁ h₂ ⊢
          exact ih bs cs h₁ h₂
        · subst hab
          simp only [charLe, if_neg hbc] at h₂
          have hac : a < c := of_decide_eq_true h₂
          simp [charLe, ne_of_lt hac, hac]
        · subst hbc
          simp only [charLe, if_neg hab] at h₁
          have hac : a < b := of_decide_eq_true h₁
          simp [charLe, ne_of_lt hac, hac]
        · simp only [charLe, if_neg hab] at h₁
          simp only [charLe, if_neg hbc] at h₂
          have hac : a < c := lt_trans (of_decide_eq_true h₁) (of_decide_eq_true h₂)
          simp [charLe, ne_of_lt hac, hac]

theorem charLe_antisymm : ∀ as bs : List Char,
    charLe as bs = true → charLe bs as = true → as = bs := by
  intro as
  induction as with
  | nil =>
    intro bs _ h₂
    cases bs with
    | nil => rfl
    | cons b bs => simp [charLe] at h₂
  | cons a as ih =>
    intro bs h₁ h₂
    cases bs with
    | nil => simp [charLe] at h₁
    | cons b bs =>
      by_cases hab : a = b
      · subst hab
        simp only [charLe, if_pos rfl] at h₁ h₂
        rw [ih bs h₁ h₂]
      · simp only [charLe, if_neg hab] at h₁
        simp only [charLe, if_neg (Ne.symm hab)] at h₂
        exact absurd (lt_trans (of_decide_eq_true h₁) (of_decide_eq_true h₂))
          (lt_irrefl a)

instance : IsTotal (String × String) keyLe :=
  ⟨fun a b => charLe_total a.1.data b.1.data⟩

instance : IsTrans (String × String) keyLe :=
  ⟨fun a b c h₁ h₂ => charLe_trans a.1.data b.1.data c.1.data h₁ h₂⟩

/-- The strict version of `keyLe` used to compare sorted outputs: ordered
and with distinct keys. -/
def keyLtNe (a b : String × String) : Prop := keyLe a b ∧ a.1 ≠ b.1

instance : IsAntisymm (String × String) keyLtNe :=
  ⟨fun a b h₁ h₂ => by
    have : a.1.data = b.1.data := charLe_antisymm _ _ h₁.1 h₂.1
    have : a.1 = b.1 := by
      cases ha : a.1; cases hb : b.1
      simp_all
    exact absurd this h₁.2⟩

theorem pyEndswith_append_left (a b suf : String) (h : pyEndswith b suf = true) :
    pyEndswith (a ++ b) suf = true := by
  simp only [pyEndswith, String.data_append] at h ⊢
  rw [List.isSuffixOf_iff_suffix] at h ⊢
  exact h.trans (List.suffix_append a.data b.data)

theorem pyEndswith_append_qmark (s : String) : pyEndswith (s ++ "?") "?" = true :=
  pyEndswith_append_left s "?" "?" (by decide)

theorem normalizeQ_endswith (ln : String) : pyEndswith (normalizeQ ln) "?" = true := by
  unfold normalizeQ
  by_cases h : pyEndswith (pyStrip (pyLstrip qMarkChars ln)) "?" = true
  · rw [if_pos h]; exact h
  · rw [if_neg h]; exact pyEndswith_append_qmark _

theorem fillerText_endswith (fkw s : String) :
    pyEndswith (fillerText fkw s) "?" = true := by
  unfold fillerText
  exact pyEndswith_append_left _ _ _ (by decide)

/-- Invariant of the candidate loop: starting from a `seen` set containing
the dedup window `w` and an accumulator of at most 3 entries that all end
in a question mark and avoid `w`, the loop preserves all three properties
and keeps `w` inside the final `seen`. -/
theorem dedupLoop_inv (w : List String) :
    ∀ (raws cleaned seen : List String),
      (∀ x ∈ w, x ∈ seen) →
      cleaned.length ≤ 3 →
      (∀ q ∈ cleaned, pyEndswith q "?" = true ∧ q ∉ w) →
      (dedupLoop raws cleaned seen).1.length ≤ 3
        ∧ (∀ x ∈ w, x ∈ (dedupLoop raws cleaned seen).2)
        ∧ (∀ q ∈ (dedupLoop raws cleaned seen).1,
            pyEndswith q "?" = true ∧ q ∉ w) := by
  intro raws
  induction raws with
  | nil => intro cleaned seen hw hlen hq; exact ⟨hlen, hw, hq⟩
  | cons ln rest ih =>
    intro cleaned seen hw hlen hq
    by_cases h3 : cleaned.length = 3
    · simp only [dedupLoop, if_pos h3]
      exact ⟨hlen, hw, hq⟩
    · simp only [dedupLoop, if_neg h3]
      by_cases hm : normalizeQ ln ∈ seen
      · simp only [if_pos hm]
        exact ih cleaned seen hw hlen hq
      · simp only [if_neg hm]
        refine ih (cleaned ++ [normalizeQ ln]) (normalizeQ ln :: seen) ?_ ?_ ?_
        · intro x hx; exact List.mem_cons_of_mem _ (hw x hx)
        · have hlt : cleaned.length < 3 := lt_of_le_of_ne hlen h3
          simp only [List.length_append, List.length_singleton]
          omega
        · intro q hqm
          rcases List.mem_append.mp hqm with h | h
          · exact hq q h
          · have hq' : q = normalizeQ ln := by simpa using h
            subst hq'
            exact ⟨normalizeQ_endswith ln, fun hqw => hm (hw _ hqw)⟩

/-- Invariant of the filler loop: under the same preconditions, whenever
the loop finishes it returns exactly 3 questions, all ending in a question
mark and avoiding the dedup window `w`. -/
theorem fillLoop_inv (w : List String) (fkw : String) :
    ∀ (fuel : Nat) (cleaned seen out seen2 : List String),
      fillLoop fkw fuel cleaned seen = some (out, seen2) →
      (∀ x ∈ w, x ∈ seen) →
      cleaned.length ≤ 3 →
      (∀ q ∈ cleaned, pyEndswith q "?" = true ∧ q ∉ w) →
      out.length = 3 ∧ ∀ q ∈ out, pyEndswith q "?" = true ∧ q ∉ w := by
  intro fuel
  induction fuel with
  | zero =>
    intro cleaned seen out seen2 heq hw hlen hq
    by_cases h : cleaned.length < 3
    · simp [fillLoop, if_pos h] at heq
    · simp only [fillLoop, if_neg h, Option.some.injEq, Prod.mk.injEq] at heq
      obtain ⟨rfl, rfl⟩ := heq
      exact ⟨le_antisymm hlen (Nat.not_lt.mp h), hq⟩
  | succ fuel ih =>
    intro cleaned seen out seen2 heq hw hlen hq
    by_cases h : cleaned.length < 3
    · simp only [fillLoop, if_pos h] at heq
      by_cases hm : fillerText fkw (starters.getD (cleaned.length % 3) "") ∈ seen
      · rw [if_pos hm] at heq
        exact ih cleaned seen out seen2 heq hw hlen hq
      · rw [if_neg hm] at heq
        refine ih _ _ out seen2 heq ?_ ?_ ?_
        · intro x hx; exact List.mem_cons_of_mem _ (hw x hx)
        · simp only [List.length_append, List.length_singleton]; omega
        · intro q hqm
          rcases List.mem_append.mp hqm with hh | hh
          · exact hq q hh
          · have hq' : q = fillerText fkw (starters.getD (cleaned.length % 3) "") := by
              simpa using hh
            subst hq'
            exact ⟨fillerText_endswith _ _, fun hqw => hm (hw _ hqw)⟩
    · simp only [fillLoop, if_neg h, Option.some.injEq, Prod.mk.injEq] at heq
      obtain ⟨rfl, rfl⟩ := heq
      exact ⟨le_antisymm hlen (Nat.not_lt.mp h), hq⟩

/-- Sorting by key maps permuted association lists with duplicate-free keys
to the same list: the heart of the `sort_keys=True` canonicalization. -/
theorem sortByKey_eq_of_perm (l₁ l₂ : List (String × String))
    (hp : l₁.Perm l₂) (hnd : (l₁.map Prod.fst).Nodup) :
    sortByKey l₁ = sortByKey l₂ := by
  have hperm : (sortByKey l₁).Perm (sortByKey l₂) :=
    (List.perm_insertionSort keyLe l₁).trans
      (hp.trans (List.perm_insertionSort keyLe l₂).symm)
  have hs₁ : List.Sorted keyLe (sortByKey l₁) := List.sorted_insertionSort keyLe l₁
  have hs₂ : List.Sorted keyLe (sortByKey l₂) := List.sorted_insertionSort keyLe l₂
  have hnd₁ : ((sortByKey l₁).map Prod.fst).Nodup :=
    (((List.perm_insertionSort keyLe l₁).map Prod.fst).nodup_iff).mpr hnd
  have hnd₂ : ((sortByKey l₂).map Prod.fst).Nodup := by
    refine (((List.perm_insertionSort keyLe l₂).map Prod.fst).nodup_iff).mpr ?_
    exact ((hp.map Prod.fst).nodup_iff).mp hnd
  have hne₁ : (sortByKey l₁).Pairwise (fun a b => a.1 ≠ b.1) :=
    List.pairwise_map.mp hnd₁
  have hne₂ : (sortByKey l₂).Pairwise (fun a b => a.1 ≠ b.1) :=
    List.pairwise_map.mp hnd₂
  have hlt₁ : List.Sorted keyLtNe (sortByKey l₁) := hs₁.and hne₁
  have hlt₂ : List.Sorted keyLtNe (sortByKey l₂) := hs₂.and hne₂
  exact List.eq_of_perm_of_sorted hperm hlt₁ hlt₂

theorem pySample_length (pool : List String) :
    ∀ sel : List Nat, (∀ i ∈ sel, i < pool.length) →
      (pySample pool sel).length = sel.length := by
  intro sel
  induction sel with
  | nil => intro _; rfl
  | cons i rest ih =>
    intro h
    have hi : i < pool.length := h i (List.mem_cons_self i rest)
    have e : pool[i]? = some pool[i] := List.getElem?_eq_getElem hi
    simp only [pySample, List.filterMap_cons, e, List.length_cons]
    have := ih (fun j hj => h j (List.mem_cons_of_mem i hj))
    simpa [pySample] using this

theorem pySample_mem (pool : List String) (sel : List Nat) (x : String)
    (hx : x ∈ pySample pool sel) : x ∈ pool := by
  rcases List.mem_filterMap.mp hx with ⟨i, _, hi⟩
  exact List.getElem?_mem hi

theorem pySample_nodup (pool : List String) (hp : pool.Nodup) :
    ∀ sel : List Nat, sel.Nodup → (∀ i ∈ sel, i < pool.length) →
      (pySample pool sel).Nodup := by
  intro sel
  induction sel with
  | nil => intro _ _; exact List.nodup_nil
  | cons i rest ih =>
    intro hnd h
    have hi : i < pool.length := h i (List.mem_cons_self i rest)
    have e : pool[i]? = some pool[i] := List.getElem?_eq_getElem hi
    obtain ⟨hmemi, hrest⟩ := List.nodup_cons.mp hnd
    simp only [pySample, List.filterMap_cons, e]
    refine List.nodup_cons.mpr
      ⟨?_, ih hrest (fun j hj => h j (List.mem_cons_of_mem i hj))⟩
    intro hmem
    rcases List.mem_filterMap.mp hmem with ⟨j, hj, hji⟩
    have hij : pool[i]? = pool[j]? := by rw [e, hji]
    exact hmemi (List.getElem?_inj hi hp hij ▸ hj)

/-! ### Claim theorems -/

/-- Claim C7: enqueueing the fragments "A", "B", "C" in one turn and then
draining into the empty draft yields exactly "A\n\nB\n\nC" in FIFO order
with blank-line separators, the drain clears the queue, and draining an
empty queue leaves the draft (and queue) unchanged. -/
theorem C7_queue_drain_ordering :
    ((_apply_draft_queue
        (_queue_append "C" (_queue_append "B" (_queue_append "A"
          ⟨"", []⟩)))).draft = "A\n\nB\n\nC"
      ∧ (_apply_draft_queue
        (_queue_append "C" (_queue_append "B" (_queue_append "A"
          ⟨"", []⟩)))).queue = [])
    ∧ ∀ d : String, _apply_draft_queue ⟨d, []⟩ = ⟨d, []⟩ :=
  ⟨⟨by decide, rfl⟩, fun _ => rfl⟩

/-- Claim C9: for every draft and outline the heuristic `detect_stage`
returns one of intro/body/concl (empty or short draft gives intro, a long
draft containing a body-indicating phrase gives body, otherwise concl), and
`detect_stage_llm` also always returns one of the three labels, matching
the lowercased response by substring and returning body when the response
is empty or matches no label. -/
theorem C9_stage_detector_totality :
    ∀ (draft : String) (outline : List (String × String)) (resp : Option String),
      (detect_stage draft outline = "intro" ∨ detect_stage draft outline = "body"
        ∨ detect_stage draft outline = "concl")
      ∧ (pyStrip draft = "" → detect_stage draft outline = "intro")
      ∧ (draft.length < 150 → detect_stage draft outline = "intro")
      ∧ (pyStrip draft ≠ "" → 150 ≤ draft.length →
          bodyPhrases.any (fun x => pyContains draft x) = true →
          detect_stage draft outline = "body")
      ∧ (pyStrip draft ≠ "" → 150 ≤ draft.length →
          bodyPhrases.any (fun x => pyContains draft x) = false →
          detect_stage draft outline = "concl")
      ∧ (detect_stage_llm draft outline resp = "intro"
        ∨ detect_stage_llm draft outline resp = "body"
        ∨ detect_stage_llm draft outline resp = "concl")
      ∧ ((resp = none ∨ resp = some "") → detect_stage_llm draft outline resp = "body")
      ∧ (pyContains (pyLower (resp.getD "")) "intro" = true →
          detect_stage_llm draft outline resp = "intro")
      ∧ (pyContains (pyLower (resp.getD "")) "intro" = false →
          pyContains (pyLower (resp.getD "")) "concl" = false →
          pyContains (pyLower (resp.getD "")) "결론" = false →
          detect_stage_llm draft outline resp = "body") := by
  intro draft outline resp
  refine ⟨?_, ?_, ?_, ?_, ?_, ?_, ?_, ?_, ?_⟩
  · by_cases h1 : pyStrip draft = "" <;> by_cases h2 : draft.length < 150 <;>
      by_cases h3 : bodyPhrases.any (fun x => pyContains draft x) = true <;>
      simp [detect_stage, h1, h2, h3]
  · intro h1; simp [detect_stage, h1]
  · intro h2; by_cases h1 : pyStrip draft = "" <;> simp [detect_stage, h1, h2]
  · intro h1 h2 h3; simp [detect_stage, h1, h2, Nat.not_lt.mpr h2, h3]
  · intro h1 h2 h3; simp [detect_stage, h1, Nat.not_lt.mpr h2, h3]
  · by_cases h1 : pyContains (pyLower (resp.getD "")) "intro" = true <;>
      by_cases h2 : (pyContains (pyLower (resp.getD "")) "concl"
        || pyContains (pyLower (resp.getD "")) "결론") = true <;>
      simp [detect_stage_llm, h1, h2]
  · rintro (rfl | rfl) <;> rfl
  · intro h1; simp [detect_stage_llm, h1]
  · intro h1 h2 h3; simp [detect_stage_llm, h1, h2, h3]

/-- Witness for C9 at concrete inputs: the empty draft classifies as intro,
"INTRO!" is matched case-insensitively, and a failed model call defaults
to body. -/
theorem C9_stage_detector_witness :
    detect_stage "" [] = "intro"
      ∧ detect_stage_llm "" [] (some "INTRO!") = "intro"
      ∧ detect_stage_llm "" [] none = "body" := by
  have h1 := C9_stage_detector_totality "" [] (some "INTRO!")
  have h2 := C9_stage_detector_totality "" [] none
  exact ⟨h1.2.1 (by decide), h1.2.2.2.2.2.2.2.1 (by decide),
    h2.2.2.2.2.2.2.1 (Or.inl rfl)⟩

/-- Counterexample to C8 as stated: a line of exactly 8 characters after
stripping is NOT "shorter than the minimum length (8 characters)", so the
claim keeps it, but the code's `len(s) > 8` test discards it. -/
theorem C8_postprocess_cex :
    cleanSuggestions "abcdefgh" 3 = [] ∧ ("abcdefgh" : String).length = 8
      ∧ cleanSuggestions "abcdefgh" 3 ≠ ["abcdefgh"] := by
  exact ⟨by decide, by decide, by decide⟩

/-- Claim C8 as amended: the cleaning step splits into lines, strips leading
enumeration markers and whitespace, keeps only lines STRICTLY LONGER than 8
characters (discarding those of length at most 8), preserves the relative
order of survivors, truncates to the first `n`, and maps empty input to the
empty list. -/
theorem C8_postprocess_amended :
    ∀ (raw : String) (n : Nat),
      (cleanSuggestions raw n).length ≤ n
      ∧ (∀ s ∈ cleanSuggestions raw n, s ≠ "" ∧ 8 < s.length)
      ∧ (cleanSuggestions raw n).Sublist ((pySplitNl (pyStrip raw)).map stripLine)
      ∧ cleanSuggestions "" n = [] := by
  intro raw n
  refine ⟨?_, ?_, ?_, ?_⟩
  · rw [cleanSuggestions, List.length_take]
    exact inf_le_left
  · intro s hs
    have hs' : s ∈ ((pySplitNl (pyStrip raw)).map stripLine).filter
        (fun s => decide (s ≠ "" ∧ 8 < s.length)) := List.mem_of_mem_take hs
    exact of_decide_eq_true (List.mem_filter.mp hs').2
  · exact (List.take_sublist n (survivors raw)).trans (List.filter_sublist _)
  · cases n <;> rfl

/-- Witness for C8 (amended) at a concrete input. -/
theorem C8_postprocess_witness :
    (cleanSuggestions "이 책은 정말 재미있었다" 3).length ≤ 3
      ∧ (("이 책은 정말 재미있었다" : String) ≠ ""
          ∧ 8 < ("이 책은 정말 재미있었다" : String).length) := by
  have h := C8_postprocess_amended "이 책은 정말 재미있었다" 3
  exact ⟨h.1, h.2.1 "이 책은 정말 재미있었다" (by decide)⟩

/-- Counterexample to C10 as stated: two index draws that `random.sample`
can both legitimately make for the same block and count return different
lists, so `get_fallback_suggestions` is not deterministic across calls. -/
theorem C10_fallback_cex :
    sampleOk (fallbackPool .intro) (min 3 (fallbackPool .intro).length) [0, 1, 2]
      ∧ sampleOk (fallbackPool .intro) (min 3 (fallbackPool .intro).length) [1, 0, 2]
      ∧ get_fallback_suggestions .intro 3 [0, 1, 2]
          ≠ get_fallback_suggestions .intro 3 [1, 0, 2] := by
  exact ⟨by decide, by decide, by decide⟩

/-- Claim C10 as amended: for any draw satisfying `random.sample`'s contract
the returned list has length exactly `min n (pool size)`, is drawn without
replacement (no duplicates) from the fixed per-category pool — but the
selection and order vary with the random draw, so two calls need not return
the identical list. -/
theorem C10_fallback_amended :
    ∀ (block : Block) (n : Nat) (sel : List Nat),
      sampleOk (fallbackPool block) (min n (fallbackPool block).length) sel →
        (get_fallback_suggestions block n sel).length
            = min n (fallbackPool block).length
          ∧ (get_fallback_suggestions block n sel).Nodup
          ∧ ∀ x ∈ get_fallback_suggestions block n sel, x ∈ fallbackPool block := by
  intro block n sel hok
  obtain ⟨hnd, hlen, hrange⟩ := hok
  have hp : (fallbackPool block).Nodup := by cases block <;> decide
  refine ⟨?_, ?_, ?_⟩
  · rw [get_fallback_suggestions, pySample_length (fallbackPool block) sel hrange, hlen]
  · exact pySample_nodup (fallbackPool block) hp sel hnd hrange
  · exact fun x hx => pySample_mem (fallbackPool block) sel x hx

/-- Witness for C10 (amended) at a concrete draw. -/
theorem C10_fallback_witness :
    (get_fallback_suggestions .body 2 [2, 0]).length
        = min 2 (fallbackPool .body).length
      ∧ (get_fallback_suggestions .body 2 [2, 0]).Nodup := by
  have h := C10_fallback_amended .body 2 [2, 0] (by decide)
  exact ⟨h.1, h.2.1⟩

/-- Counterexample to C6 as stated: a non-null response whose cleaned output
is empty (fewer than the requested 3) is returned as-is; the fallback
provider is NOT invoked and the caller receives 0 < 3 suggestions. -/
theorem C6_fallback_on_shortfall_cex :
    (generate_ai_suggestions (fun s => s) (some "짧다") [] ⟨[], "", ""⟩
        ⟨"", "", [], ""⟩ .intro 3).calledFallback = false
      ∧ (generate_ai_suggestions (fun s => s) (some "짧다") [] ⟨[], "", ""⟩
          ⟨"", "", [], ""⟩ .intro 3).result = [] := by
  exact ⟨by decide, by decide⟩

/-- Claim C6 as amended: in `generate_ai_suggestions` the fallback provider
is invoked exactly when the fingerprint misses the cache AND the generation
client returned null (or the falsy empty string); a non-empty response that
cleans to fewer than `n` usable lines is cached and returned as-is, so a
shortfall is never backfilled there. -/
theorem C6_fallback_on_shortfall_amended :
    ∀ (md5hex : String → String) (response : Option String) (sel : List Nat)
      (sess : SugSession) (context : Ctx) (block : Block) (n : Nat),
      ((generate_ai_suggestions md5hex response sel sess context block n).calledFallback
          = true)
        ↔ (sess.cache.lookup (_stable_cache_key md5hex
              (keyFields context block n sess.focus_kw sess.book_index)) = none
            ∧ (response = none ∨ response = some "")) := by
  intro md5hex response sel sess context block n
  unfold generate_ai_suggestions
  cases hl : sess.cache.lookup (_stable_cache_key md5hex
      (keyFields context block n sess.focus_kw sess.book_index)) with
  | some v => simp [hl]
  | none =>
    cases response with
    | none => simp [hl]
    | some r =>
      by_cases hr : r = ""
      · subst hr; simp [hl]
      · simp [hl, hr]

/-- Counterexample to C1 as stated: with an empty cache and a null
generation response, two identical calls BOTH invoke the generation client
(two invocations, not at most one), because the fallback result is not
stored under the fingerprint — the session leaves the call unchanged. -/
theorem C1_cache_idempotence_cex :
    (generate_ai_suggestions (fun s => s) none [0, 1, 2] ⟨[], "", ""⟩
        ⟨"책", "", [], ""⟩ .intro 3).calledApi = true
      ∧ (generate_ai_suggestions (fun s => s) none [0, 1, 2] ⟨[], "", ""⟩
          ⟨"책", "", [], ""⟩ .intro 3).session = ⟨[], "", ""⟩
      ∧ (generate_ai_suggestions (fun s => s) none [0, 1, 2]
          (generate_ai_suggestions (fun s => s) none [0, 1, 2] ⟨[], "", ""⟩
            ⟨"책", "", [], ""⟩ .intro 3).session
          ⟨"책", "", [], ""⟩ .intro 3).calledApi = true := by
  exact ⟨by decide, by decide, by decide⟩

/-- Claim C1 as amended: when the generation client returns usable
(non-empty) text, two calls of `generate_ai_suggestions` with identical
context, block and count invoke the client at most once in total and return
identical lists (the first miss stores the cleaned lines under the
fingerprint; a hit never re-invokes); but a null response is NOT cached, so
a second identical call after a failure invokes generation again. -/
theorem C1_cache_idempotence_amended :
    ∀ (md5hex : String → String) (r : String) (sel₁ sel₂ : List Nat)
      (resp₂ : Option String) (sess : SugSession) (context : Ctx)
      (block : Block) (n : Nat),
      r ≠ "" →
      (generate_ai_suggestions md5hex resp₂ sel₂
          (generate_ai_suggestions md5hex (some r) sel₁ sess context block n).session
          context block n).result
        = (generate_ai_suggestions md5hex (some r) sel₁ sess context block n).result
      ∧ ¬((generate_ai_suggestions md5hex (some r) sel₁ sess context block n).calledApi
            = true
          ∧ (generate_ai_suggestions md5hex resp₂ sel₂
              (generate_ai_suggestions md5hex (some r) sel₁ sess context
                block n).session
              context block n).calledApi = true) := by
  intro md5hex r sel₁ sel₂ resp₂ sess context block n hr
  unfold generate_ai_suggestions
  cases hl : sess.cache.lookup (_stable_cache_key md5hex
      (keyFields context block n sess.focus_kw sess.book_index)) with
  | some v => simp [hl]
  | none =>
    simp only [hl, hr, if_neg hr]
    simp [List.lookup]

/-- Witness for C1 (amended) at a concrete input: one miss followed by one
hit returning the same cleaned list. -/
theorem C1_cache_idempotence_witness :
    (generate_ai_suggestions (fun s => s) none []
        (generate_ai_suggestions (fun s => s) (some "이 책을 읽으며 나는 참 많은 것을 느꼈다") []
          ⟨[], "", ""⟩ ⟨"책", "", [], ""⟩ .intro 3).session
        ⟨"책", "", [], ""⟩ .intro 3).result
      = (generate_ai_suggestions (fun s => s) (some "이 책을 읽으며 나는 참 많은 것을 느꼈다") []
          ⟨[], "", ""⟩ ⟨"책", "", [], ""⟩ .intro 3).result :=
  (C1_cache_idempotence_amended (fun s => s) "이 책을 읽으며 나는 참 많은 것을 느꼈다" [] []
    none ⟨[], "", ""⟩ ⟨"책", "", [], ""⟩ .intro 3 (by decide)).1

/-- Claim C5: the fingerprint is a deterministic function of the truncated
key fields — two contexts agreeing on the book title, the first 800
characters of the book text, the outline (as a key-value set, regardless of
insertion order, keys being distinct), the last 500 characters of the
draft, the block, the count, the focus keyword and the first 1200
characters of the book index receive the same cache key, whatever they look
like outside those windows. -/
theorem C5_fingerprint_coarseness :
    ∀ (md5hex : String → String) (c₁ c₂ : Ctx) (fkw₁ fkw₂ bidx₁ bidx₂ : String)
      (block : Block) (n : Nat),
      c₁.book_title = c₂.book_title →
      pyTake 800 c₁.book_text = pyTake 800 c₂.book_text →
      c₁.outline.Perm c₂.outline →
      (c₁.outline.map Prod.fst).Nodup →
      pySliceLast 500 c₁.draft = pySliceLast 500 c₂.draft →
      fkw₁ = fkw₂ →
      pyTake 1200 bidx₁ = pyTake 1200 bidx₂ →
      _stable_cache_key md5hex (keyFields c₁ block n fkw₁ bidx₁)
        = _stable_cache_key md5hex (keyFields c₂ block n fkw₂ bidx₂) := by
  intro md5hex c₁ c₂ fkw₁ fkw₂ bidx₁ bidx₂ block n h₁ h₂ hperm hnd h₃ h₄ h₅
  have houtline : dumpsStrObj c₁.outline = dumpsStrObj c₂.outline := by
    unfold dumpsStrObj
    rw [sortByKey_eq_of_perm c₁.outline c₂.outline hperm hnd]
  unfold _stable_cache_key keyFields
  rw [h₁, h₂, houtline, h₃, h₄, h₅]

set_option maxRecDepth 8000 in
/-- Witness for C5 at concrete inputs: drafts differing only before their
last 500 characters and outlines differing only in key order share a
fingerprint. -/
theorem C5_fingerprint_witness :
    _stable_cache_key (fun s => s)
        (keyFields ⟨"책", "내용", [("intro", "가"), ("body", "나")],
          String.mk ('x' :: List.replicate 500 'a')⟩ .intro 3 "" "")
      = _stable_cache_key (fun s => s)
        (keyFields ⟨"책", "내용", [("body", "나"), ("intro", "가")],
          String.mk ('y' :: List.replicate 500 'a')⟩ .intro 3 "" "") :=
  C5_fingerprint_coarseness (fun s => s)
    ⟨"책", "내용", [("intro", "가"), ("body", "나")],
      String.mk ('x' :: List.replicate 500 'a')⟩
    ⟨"책", "내용", [("body", "나"), ("intro", "가")],
      String.mk ('y' :: List.replicate 500 'a')⟩
    "" "" "" "" .intro 3 rfl rfl
    (List.Perm.swap ("body", "나") ("intro", "가") [])
    (by decide) (by decide) rfl rfl

/-- Counterexample to C2 as stated: on the null-response path the three
fixed base questions are returned without any history check, so when one of
them already sits in the history, the output repeats an entry of the
most-recent-100 window. -/
theorem C2_dedup_cex :
    generate_guiding_questions none ""
        ["왜 이 장면이 특히 중요한지 스스로 설명할 수 있나요?"] 1
      = some (baseQuestions,
          "왜 이 장면이 특히 중요한지 스스로 설명할 수 있나요?" :: baseQuestions)
      ∧ "왜 이 장면이 특히 중요한지 스스로 설명할 수 있나요?" ∈ baseQuestions
      ∧ "왜 이 장면이 특히 중요한지 스스로 설명할 수 있나요?"
          ∈ pyTakeLast 100 ["왜 이 장면이 특히 중요한지 스스로 설명할 수 있나요?"] := by
  exact ⟨by decide, by decide, by decide⟩

/-- Claim C2 as amended: every TERMINATING call of
`generate_guiding_questions` returns exactly 3 questions, each ending in a
question mark; when the model response is non-null and non-empty, none of
them matches the most-recent-100 window of the history (on the null/empty
path the fixed base questions are returned unchecked, and candidates taken
from the response are not constrained to start with 왜/어떻게/만약 — only
the synthesized fillers and base questions carry those starters). -/
theorem C2_dedup_amended :
    ∀ (resp : Option String) (fkw : String) (hist : List String) (fuel : Nat)
      (out hist2 : List String),
      generate_guiding_questions resp fkw hist fuel = some (out, hist2) →
      out.length = 3
      ∧ (∀ q ∈ out, pyEndswith q "?" = true)
      ∧ (∀ r, resp = some r → r ≠ "" → ∀ q ∈ out, q ∉ pyTakeLast 100 hist) := by
  intro resp fkw hist fuel out hist2 heq
  cases resp with
  | none =>
    simp only [generate_guiding_questions, Option.some.injEq, Prod.mk.injEq] at heq
    obtain ⟨rfl, rfl⟩ := heq
    exact ⟨by decide, by decide, fun r hr => Option.noConfusion hr⟩
  | some r =>
    by_cases hr : r = ""
    · subst hr
      simp only [generate_guiding_questions, if_pos rfl, Option.some.injEq,
        Prod.mk.injEq] at heq
      obtain ⟨rfl, rfl⟩ := heq
      refine ⟨by decide, by decide, ?_⟩
      intro r' hr' hne
      exact absurd (Option.some.inj hr').symm hne
    · simp only [generate_guiding_questions, if_neg hr] at heq
      cases hfl : fillLoop fkw fuel
          (dedupLoop ((pySplitlines r).filterMap
            (fun ln => let t := pyStrip ln; if t = "" then none else some t))
            [] (pyTakeLast 100 hist)).1
          (dedupLoop ((pySplitlines r).filterMap
            (fun ln => let t := pyStrip ln; if t = "" then none else some t))
            [] (pyTakeLast 100 hist)).2 with
      | none => rw [hfl] at heq; cases heq
      | some p =>
        obtain ⟨cleaned, seen2⟩ := p
        rw [hfl] at heq
        simp only [Option.some.injEq, Prod.mk.injEq] at heq
        obtain ⟨rfl, rfl⟩ := heq
        have hded := dedupLoop_inv (pyTakeLast 100 hist)
          ((pySplitlines r).filterMap
            (fun ln => let t := pyStrip ln; if t = "" then none else some t))
          [] (pyTakeLast 100 hist) (fun x hx => hx) (by simp)
          (fun q hq => absurd hq (List.not_mem_nil q))
        have hfill := fillLoop_inv (pyTakeLast 100 hist) fkw fuel _ _ cleaned seen2
          hfl hded.2.1 hded.1 hded.2.2
        have hall : cleaned.take 3 = cleaned :=
          List.take_of_length_le (le_of_eq hfill.1)
        refine ⟨?_, ?_, ?_⟩
        · rw [hall]; exact hfill.1
        · intro q hq; rw [hall] at hq; exact (hfill.2 q hq).1
        · intro r' _ _ q hq; rw [hall] at hq; exact (hfill.2 q hq).2

/-- Witness for C2 (amended) at a concrete terminating call: one usable
candidate from the model plus two synthesized fillers. -/
theorem C2_dedup_witness :
    (["왜 하늘은 파랄까요?", fillerText "" "어떻게", fillerText "" "만약"] :
        List String).length = 3
      ∧ (∀ q ∈ (["왜 하늘은 파랄까요?", fillerText "" "어떻게",
            fillerText "" "만약"] : List String), pyEndswith q "?" = true)
      ∧ (∀ q ∈ (["왜 하늘은 파랄까요?", fillerText "" "어떻게",
            fillerText "" "만약"] : List String),
          q ∉ pyTakeLast 100 (["예전에 했던 질문인가요?"] : List String)) := by
  have h := C2_dedup_amended (some "왜 하늘은 파랄까요?") "" ["예전에 했던 질문인가요?"] 9
    ["왜 하늘은 파랄까요?", fillerText "" "어떻게", fillerText "" "만약"]
    (["예전에 했던 질문인가요?", "왜 하늘은 파랄까요?", fillerText "" "어떻게",
      fillerText "" "만약"] : List String) (by decide)
  exact ⟨h.1, h.2.1, h.2.2 "왜 하늘은 파랄까요?" rfl (by decide)⟩

/-- The filler loop of `generate_guiding_questions` never finishes when the
filler for the current deficit position is already in `seen`: the loop body
re-tests the identical filler without advancing. -/
theorem fillLoop_stuck (seen : List String) (hmem : fillerText "" "왜" ∈ seen) :
    ∀ fuel : Nat, fillLoop "" fuel [] seen = none := by
  intro fuel
  induction fuel with
  | zero => rfl
  | succ fuel ih =>
    simp only [fillLoop]
    rw [if_pos (show ([] : List String).length < 3 by decide)]
    rw [if_pos (show fillerText "" (starters.getD (([] : List String).length % 3) "")
      ∈ seen from hmem)]
    exact ih

/-- Claim C3 is a code bug: when all three possible filler questions already
occur in the recent history window and the (non-empty) model response
yields no usable candidate, the `while` loop of
`generate_guiding_questions` runs forever — no fuel bound suffices. -/
theorem C3_filler_loop_nonterminating :
    ∀ fuel : Nat,
      generate_guiding_questions (some " ") ""
        [fillerText "" "왜", fillerText "" "어떻게", fillerText "" "만약"] fuel
        = none := by
  intro fuel
  have hr : (" " : String) ≠ "" := by decide
  simp only [generate_guiding_questions, if_neg hr]
  cases hfl : fillLoop "" fuel
      (dedupLoop ((pySplitlines " ").filterMap
        (fun ln => let t := pyStrip ln; if t = "" then none else some t))
        [] (pyTakeLast 100 [fillerText "" "왜", fillerText "" "어떻게",
          fillerText "" "만약"])).1
      (dedupLoop ((pySplitlines " ").filterMap
        (fun ln => let t := pyStrip ln; if t = "" then none else some t))
        [] (pyTakeLast 100 [fillerText "" "왜", fillerText "" "어떻게",
          fillerText "" "만약"])).2 with
  | none => rfl
  | some p =>
    exfalso
    have h2 : fillLoop "" fuel
        (dedupLoop ((pySplitlines " ").filterMap
          (fun ln => let t := pyStrip ln; if t = "" then none else some t))
          [] (pyTakeLast 100 [fillerText "" "왜", fillerText "" "어떻게",
            fillerText "" "만약"])).1
        (dedupLoop ((pySplitlines " ").filterMap
          (fun ln => let t := pyStrip ln; if t = "" then none else some t))
          [] (pyTakeLast 100 [fillerText "" "왜", fillerText "" "어떻게",
            fillerText "" "만약"])).2 = none :=
      fillLoop_stuck
        (pyTakeLast 100 [fillerText "" "왜", fillerText "" "어떻게",
          fillerText "" "만약"]) (by decide) fuel
    rw [h2] at hfl
    cases hfl

/-- Claim C4 is a code bug on its trim-direction half: with a history
already holding 50 questions, a successful call stores
`(hist + cleaned)[:50]`, i.e. the post-call history equals the OLD 50
entries — the newly surfaced questions (here the returned first question)
are the ones dropped, not the oldest entries. -/
theorem C4_history_trim_direction :
    generate_guiding_questions (some "왜 하늘은 파랄까요?") ""
        ((List.range 50).map (fun i => String.mk (List.replicate (i + 1) 'a') ++ "?")) 9
      = some (["왜 하늘은 파랄까요?", fillerText "" "어떻게", fillerText "" "만약"],
          (List.range 50).map (fun i => String.mk (List.replicate (i + 1) 'a') ++ "?"))
      ∧ "왜 하늘은 파랄까요?"
          ∉ (List.range 50).map (fun i => String.mk (List.replicate (i + 1) 'a') ++ "?") := by
  exact ⟨by decide, by decide⟩

end Yerim
